import Mathlib

/-!
# Verification of the homePT report generator

Shallow embedding of the core layout, wrapping, batching and HTTP-route
logic of the homePT repository, together with theorems settling the
specification claims about it.

JavaScript strings are modelled as `List Char`; JavaScript numbers that
take part in layout arithmetic are modelled as `Int`; the glyph-width
metric `font.widthOfTextAtSize` is an abstract function parameter;
fallible external calls (OpenAI completion, Zod validation, rendering,
file writes) are modelled with `Except`.
-/

namespace HomePT

/-- JavaScript strings, modelled as lists of characters. -/
abbrev JSStr : Type := List Char

/-- Raw JSON payloads are kept opaque as strings. -/
abbrev RawJson : Type := JSStr

/-- Byte buffers produced by the renderers. -/
abbrev Bytes : Type := List Nat

/-! ## Text Flow Engine: `wrapText` (src/lib/generatePdf.ts, lines 21–48) -/

/-- The loop body of `wrapText`: iterates over the words, keeping the
current line and the accumulated lines.  `testLine` is
`currentLine ? currentLine + " " + word : word`; the line is closed when
`width > maxWidth && currentLine`. -/
def wrapTextGo (maxWidth : Int) (font : JSStr → Int → Int) (fontSize : Int) :
    List JSStr → JSStr → List JSStr → List JSStr
  | [], currentLine, lines =>
      if currentLine = [] then lines else lines ++ [currentLine]
  | word :: words, currentLine, lines =>
      let testLine := if currentLine = [] then word else currentLine ++ ' ' :: word
      let width := font testLine fontSize
      if maxWidth < width ∧ currentLine ≠ [] then
        wrapTextGo maxWidth font fontSize words word (lines ++ [currentLine])
      else
        wrapTextGo maxWidth font fontSize words testLine lines

/-- `wrapText(text, maxWidth, font, fontSize)`: splits the text on the
space character (JavaScript `text.split(" ")`) and runs the greedy loop. -/
def wrapText (text : JSStr) (maxWidth : Int) (font : JSStr → Int → Int)
    (fontSize : Int) : List JSStr :=
  wrapTextGo maxWidth font fontSize (text.splitOn ' ') [] []

/-- Modelled from the spec: the greedy wrap rule as §4.1 words it, on an
already-split word list.  A word starts a new line when the current line
is empty (a single word is never split); otherwise it is appended exactly
when `font (currentLine + " " + word) ≤ maxWidth`. -/
def greedyWrapSpec (maxWidth : Int) (font : JSStr → Int → Int) (fontSize : Int) :
    List JSStr → JSStr → List JSStr
  | [], currentLine => if currentLine = [] then [] else [currentLine]
  | word :: words, currentLine =>
      if currentLine = [] then
        greedyWrapSpec maxWidth font fontSize words word
      else if font (currentLine ++ ' ' :: word) fontSize ≤ maxWidth then
        greedyWrapSpec maxWidth font fontSize words (currentLine ++ ' ' :: word)
      else
        currentLine :: greedyWrapSpec maxWidth font fontSize words word

/-- Modelled from the spec: §4.1 says the wrap function "splits input on
whitespace into words"; this version splits on whitespace characters
before running the greedy rule. -/
def wrapTextSpecWS (text : JSStr) (maxWidth : Int) (font : JSStr → Int → Int)
    (fontSize : Int) : List JSStr :=
  greedyWrapSpec maxWidth font fontSize
    (text.splitOnP (fun c => c.isWhitespace)) []

/-- Modelled from the spec: whitespace normalization as §8 words it —
"collapsing runs of whitespace to single spaces and trimming". -/
def normalizeWS (s : JSStr) : JSStr :=
  List.intercalate [' ']
    ((s.splitOnP (fun c => c.isWhitespace)).filter (· ≠ []))

/-- A concrete glyph-width metric used by witnesses: width = character
count, independent of the font size. -/
def lenMetric (s : JSStr) (_fontSize : Int) : Int := s.length

/-! ## Page Flow Controller (src/lib/generatePdf.ts, lines 50–100)

The `PDFDocument` is modelled as a page counter: `addPage` hands out the
next page index.  A drawing run is a `DrawState`: the number of pages
allocated so far, the current page index, the vertical cursor, and the
trace of emitted draw operations. -/

/-- The `PageContext` of generatePdf.ts (geometry constants; the
`pdfDoc` handle is modelled by the page counter in `DrawState`). -/
structure PageContext where
  pageHeight : Int
  topPadding : Int
  bottomPadding : Int
deriving DecidableEq

/-- One `page.drawText` call: which page, position, font size, text, and
whether the bold font was used. -/
structure DrawOp where
  page : Nat
  x : Int
  y : Int
  size : Int
  text : JSStr
  bold : Bool
deriving DecidableEq

/-- The renderer-side mutable state threaded through the emission calls:
pages allocated so far, current page, vertical offset, and the trace of
draw operations. -/
structure DrawState where
  nPages : Nat
  page : Nat
  y : Int
  ops : List DrawOp
deriving DecidableEq

/-- The `TextConfig` record of generatePdf.ts (the font itself is passed
separately as a width function plus a boldness tag). -/
structure TextConfig where
  text : JSStr
  x : Int
  y : Int
  size : Int
  maxWidth : Int
  lineHeight : Int
  bold : Bool

/-- The per-line loop of `drawText` (lines 69–84): for each wrapped line,
if the cursor is below `bottomPadding` a page is allocated and the cursor
reset to `pageHeight - topPadding`; the line is then drawn and the cursor
decremented by `lineHeight`. -/
def drawTextLoop (ctx : PageContext) (x size lineHeight : Int) (bold : Bool) :
    List JSStr → DrawState → DrawState
  | [], st => st
  | line :: rest, st =>
      if st.y < ctx.bottomPadding then
        drawTextLoop ctx x size lineHeight bold rest
          { nPages := st.nPages + 1, page := st.nPages,
            y := ctx.pageHeight - ctx.topPadding - lineHeight,
            ops := st.ops ++
              [⟨st.nPages, x, ctx.pageHeight - ctx.topPadding, size, line, bold⟩] }
      else
        drawTextLoop ctx x size lineHeight bold rest
          { st with y := st.y - lineHeight,
                    ops := st.ops ++ [⟨st.page, x, st.y, size, line, bold⟩] }

/-- `drawText(page, config, ctx)` (lines 50–87): wraps the text and runs
the per-line loop starting from the configured vertical position. -/
def drawText (ctx : PageContext) (font : JSStr → Int → Int) (cfg : TextConfig)
    (st : DrawState) : DrawState :=
  drawTextLoop ctx cfg.x cfg.size cfg.lineHeight cfg.bold
    (wrapText cfg.text cfg.maxWidth font cfg.size) { st with y := cfg.y }

/-- `ensureSpaceForSection(currentPage, yPosition, minSpace, ctx)`
(lines 89–100): if `yPosition - minSpace < bottomPadding`, allocate a new
page and reset the offset to `pageHeight - topPadding`; otherwise return
the input unchanged. -/
def ensureSpaceForSection (ctx : PageContext) (st : DrawState)
    (minSpace : Int) : DrawState :=
  if st.y - minSpace < ctx.bottomPadding then
    { st with nPages := st.nPages + 1, page := st.nPages,
              y := ctx.pageHeight - ctx.topPadding }
  else st

/-! ## The Report data model (src/lib/schema.ts) -/

/-- `patientInformation` block of a validated report. -/
structure PatientInformation where
  name : JSStr
  dateOfBirth : JSStr
  gender : JSStr
  mrn : JSStr
  dateOfReport : JSStr
  hospital : JSStr
deriving DecidableEq

/-- One entry of `diagnoses`. -/
structure Diagnosis where
  label : JSStr
  code : JSStr
  description : JSStr
deriving DecidableEq

/-- `treatmentPlan.homePhysio`. -/
structure HomePhysio where
  frequency : JSStr
  duration : JSStr
deriving DecidableEq

/-- `treatmentPlan`. -/
structure TreatmentPlan where
  medications : List JSStr
  homePhysio : HomePhysio
  shortTermGoals : List JSStr
  longTermGoals : List JSStr
deriving DecidableEq

/-- The `signature` block. -/
structure SignatureBlock where
  greeting : JSStr
  doctorName : JSStr
  title : JSStr
  dohLicense : JSStr
  facility : JSStr
  date : JSStr
  signatureStamp : JSStr
deriving DecidableEq

/-- A validated report (`ReportData` in src/lib/schema.ts). -/
structure ReportData where
  patientInformation : PatientInformation
  clinicalHistory : JSStr
  pastMedicalHistory : List JSStr
  vitalSigns : List JSStr
  clinicalNotes : JSStr
  diagnoses : List Diagnosis
  treatmentPlan : TreatmentPlan
  prognosis : List JSStr
  conclusion : JSStr
  signature : SignatureBlock
deriving DecidableEq

/-! ## The PDF renderer (src/lib/generatePdf.ts, lines 102–527)

`generatePdf` is translated into a trace of draw operations: the external
`pdf-lib` calls `page.drawText` become `DrawOp` records and `addPage`
becomes the page counter of `DrawState`.  The two embedded fonts appear
as two abstract width functions. -/

/-- The geometry constants of `generatePdf`: A4 page height 842, top
padding 230, bottom padding 100. -/
def pdfCtx : PageContext := ⟨842, 230, 100⟩

/-- A direct `page.drawText` call without any pagination checks. -/
def rawDraw (st : DrawState) (x y size : Int) (txt : JSStr) (bold : Bool) :
    DrawState :=
  { st with ops := st.ops ++ [⟨st.page, x, y, size, txt, bold⟩] }

/-- A major section header: `ensureSpaceForSection` with
`MAJOR_SECTION_MIN_SPACE = 74`, a bold 14pt header, then `y -= 24`. -/
def majorHeader (st : DrawState) (txt : JSStr) : DrawState :=
  let st := ensureSpaceForSection pdfCtx st 74
  let st := rawDraw st 50 st.y 14 txt true
  { st with y := st.y - 24 }

/-- A subsection header: `ensureSpaceForSection` with
`SUBSECTION_MIN_SPACE = 66`, a bold 12pt header, then `y -= 18`. -/
def subHeader (st : DrawState) (txt : JSStr) : DrawState :=
  let st := ensureSpaceForSection pdfCtx st 66
  let st := rawDraw st 50 st.y 12 txt true
  { st with y := st.y - 18 }

/-- A body paragraph through `drawText`: regular font, 12pt, margin 50,
content width 495, line height 18. -/
def drawBody (font : JSStr → Int → Int) (st : DrawState) (txt : JSStr) :
    DrawState :=
  drawText pdfCtx font
    { text := txt, x := 50, y := st.y, size := 12, maxWidth := 495,
      lineHeight := 18, bold := false } st

/-- A run of bullet items, each drawn as `• ${item}` through `drawText`. -/
def bulletItems (font : JSStr → Int → Int) (st : DrawState)
    (items : List JSStr) : DrawState :=
  items.foldl (fun s it => drawBody font s ('•' :: ' ' :: it)) st

/-- The six `Name: …` … `Hospital: …` lines of the patient block. -/
def patientFieldLines (p : PatientInformation) : List JSStr :=
  [ "Name: ".toList ++ p.name,
    "Date of Birth: ".toList ++ p.dateOfBirth,
    "Gender: ".toList ++ p.gender,
    "MRN: ".toList ++ p.mrn,
    "Date of Report: ".toList ++ p.dateOfReport,
    "Hospital: ".toList ++ p.hospital ]

/-- The `"<label> (<code>): <description>"` formatting of one diagnosis. -/
def diagnosisLine (d : Diagnosis) : JSStr :=
  d.label ++ " (".toList ++ d.code ++ "): ".toList ++ d.description

/-- The full draw trace of `generatePdf` in source order: title, patient
information, clinical history, past medical history, vital signs,
clinical notes, diagnoses, treatment plan (medications, home physio,
short- and long-term goals), prognosis, conclusion, signature block.
The centered title x-coordinate `(pageWidth - titleWidth) / 2` is
modelled with integer division. -/
def generatePdfTrace (font fontBold : JSStr → Int → Int)
    (report : ReportData) : DrawState :=
  let st : DrawState := ⟨1, 0, 842 - 230, []⟩
  let titleWidth := fontBold "Medical Report".toList 20
  let st := rawDraw st ((595 - titleWidth) / 2) st.y 20 "Medical Report".toList true
  let st := { st with y := st.y - 40 }
  let st := majorHeader st "Patient Information:".toList
  let st := (patientFieldLines report.patientInformation).foldl
    (fun s f => drawBody font s f) st
  let st := { st with y := st.y - 12 }
  let st := majorHeader st "Clinical History:".toList
  let st := drawBody font st report.clinicalHistory
  let st := { st with y := st.y - 12 }
  let st := majorHeader st "Past Medical History:".toList
  let st := bulletItems font st report.pastMedicalHistory
  let st := { st with y := st.y - 12 }
  let st := majorHeader st "Vital Signs:".toList
  let st := bulletItems font st report.vitalSigns
  let st := { st with y := st.y - 12 }
  let st := majorHeader st "Clinical Notes:".toList
  let st := drawBody font st report.clinicalNotes
  let st := { st with y := st.y - 12 }
  let st := majorHeader st "Diagnoses:".toList
  let st := bulletItems font st (report.diagnoses.map diagnosisLine)
  let st := { st with y := st.y - 12 }
  let st := majorHeader st "Treatment Plan:".toList
  let st := subHeader st "Medications:".toList
  let st := bulletItems font st report.treatmentPlan.medications
  let st := { st with y := st.y - 12 }
  let st := subHeader st "Home Physiotherapy:".toList
  let st := drawBody font st
    ("Frequency: ".toList ++ report.treatmentPlan.homePhysio.frequency)
  let st := drawBody font st
    ("Duration: ".toList ++ report.treatmentPlan.homePhysio.duration)
  let st := { st with y := st.y - 12 }
  let st := subHeader st "Short-Term Goals:".toList
  let st := bulletItems font st report.treatmentPlan.shortTermGoals
  let st := { st with y := st.y - 12 }
  let st := subHeader st "Long-Term Goals:".toList
  let st := bulletItems font st report.treatmentPlan.longTermGoals
  let st := { st with y := st.y - 12 }
  let st := majorHeader st "Prognosis:".toList
  let st := bulletItems font st report.prognosis
  let st := { st with y := st.y - 12 }
  let st := majorHeader st "Conclusion:".toList
  let st := drawBody font st report.conclusion
  let st := { st with y := st.y - 24 }
  let st := ensureSpaceForSection pdfCtx st 150
  let st := rawDraw st 50 st.y 12 report.signature.greeting false
  let st := { st with y := st.y - 24 }
  let st := rawDraw st 50 st.y 12 report.signature.doctorName false
  let st := { st with y := st.y - 18 }
  let st := rawDraw st 50 st.y 12 report.signature.title false
  let st := { st with y := st.y - 18 }
  let st := rawDraw st 50 st.y 12 report.signature.dohLicense false
  let st := { st with y := st.y - 18 }
  let st := rawDraw st 50 st.y 12 report.signature.facility false
  let st := { st with y := st.y - 18 }
  let st := rawDraw st 50 st.y 12 report.signature.date false
  let st := { st with y := st.y - 24 }
  rawDraw st 50 st.y 12 report.signature.signatureStamp false

/-! ## The DOCX renderer (src/lib/generateDocx.ts)

`generateDocx` builds a flat list of `docx` paragraphs; the host format
reflows, so the plan is a list of blocks: headings (TITLE modelled as
level 0, HEADING_2 as 2, HEADING_3 as 3) with their `spacing.after`
value, plain paragraphs with an optional `spacing.after`, and bullets. -/

/-- One paragraph of the generated DOCX document. -/
inductive DocxBlock where
  | heading (level : Nat) (text : JSStr) (after : Nat)
  | para (text : JSStr) (after : Option Nat)
  | bullet (text : JSStr)
deriving DecidableEq

/-- The full paragraph plan of `generateDocx` in source order. -/
def generateDocxPlan (report : ReportData) : List DocxBlock :=
  [ DocxBlock.heading 0 "Medical Report".toList 400,
    DocxBlock.heading 2 "Patient Information:".toList 200 ]
  ++ (patientFieldLines report.patientInformation).map
      (fun f => DocxBlock.para f (some 100))
  ++ [ DocxBlock.para [] (some 200),
       DocxBlock.heading 2 "Clinical History:".toList 200,
       DocxBlock.para report.clinicalHistory (some 200),
       DocxBlock.heading 2 "Past Medical History:".toList 200 ]
  ++ report.pastMedicalHistory.map DocxBlock.bullet
  ++ [ DocxBlock.para [] (some 200),
       DocxBlock.heading 2 "Vital Signs:".toList 200 ]
  ++ report.vitalSigns.map DocxBlock.bullet
  ++ [ DocxBlock.para [] (some 200),
       DocxBlock.heading 2 "Clinical Notes:".toList 200,
       DocxBlock.para report.clinicalNotes (some 200),
       DocxBlock.heading 2 "Diagnoses:".toList 200 ]
  ++ report.diagnoses.map (fun d => DocxBlock.bullet (diagnosisLine d))
  ++ [ DocxBlock.para [] (some 200),
       DocxBlock.heading 2 "Treatment Plan:".toList 200,
       DocxBlock.heading 3 "Medications:".toList 100 ]
  ++ report.treatmentPlan.medications.map DocxBlock.bullet
  ++ [ DocxBlock.para [] (some 100),
       DocxBlock.heading 3 "Home Physiotherapy:".toList 100,
       DocxBlock.para
         ("Frequency: ".toList ++ report.treatmentPlan.homePhysio.frequency) none,
       DocxBlock.para
         ("Duration: ".toList ++ report.treatmentPlan.homePhysio.duration) (some 100),
       DocxBlock.heading 3 "Short-Term Goals:".toList 100 ]
  ++ report.treatmentPlan.shortTermGoals.map DocxBlock.bullet
  ++ [ DocxBlock.para [] (some 100),
       DocxBlock.heading 3 "Long-Term Goals:".toList 100 ]
  ++ report.treatmentPlan.longTermGoals.map DocxBlock.bullet
  ++ [ DocxBlock.para [] (some 200),
       DocxBlock.heading 2 "Prognosis:".toList 200 ]
  ++ report.prognosis.map DocxBlock.bullet
  ++ [ DocxBlock.para [] (some 200),
       DocxBlock.heading 2 "Conclusion:".toList 200,
       DocxBlock.para report.conclusion (some 400),
       DocxBlock.para report.signature.greeting (some 200),
       DocxBlock.para report.signature.doctorName (some 100),
       DocxBlock.para report.signature.title (some 100),
       DocxBlock.para report.signature.dohLicense (some 100),
       DocxBlock.para report.signature.facility (some 100),
       DocxBlock.para report.signature.date (some 200),
       DocxBlock.para report.signature.signatureStamp (some 100) ]

/-! ## HTTP route handlers

The four POST handlers concatenated in src/app/api/extract-patients/route.ts
(extract-patients, create-pdfs-batch, generate-report,
generate-reports-batch) and the one in src/app/api/create-pdf/route.ts.
External calls (OpenAI completion, Zod validation, rendering, filesystem
writes) are oracle parameters returning `Except`; a thrown JavaScript
error is an `Except.error`, with Zod errors distinguished because the
catch blocks branch on `error.name === "ZodError"`. -/

/-- A JavaScript exception as the catch blocks see it: either a Zod
validation error or any other error. -/
inductive JsError where
  | zod (details : JSStr)
  | other (msg : JSStr)
deriving DecidableEq

/-- The message carried by a JavaScript error. -/
def jsErrorMessage : JsError → JSStr
  | .zod d => d
  | .other m => m

/-- An HTTP response, reduced to its status code and error text. -/
structure HttpResponse where
  status : Nat
  errorText : JSStr
deriving DecidableEq

/-- JavaScript truthiness of an optional string: `null` and `""` are
falsy. -/
def optStrTruthy : Option JSStr → Bool
  | none => false
  | some s => !s.isEmpty

/-- ASCII letter-or-digit test, the `[a-zA-Z0-9]` character class. -/
def isAsciiAlnum (c : Char) : Bool :=
  ('a' ≤ c && c ≤ 'z') || ('A' ≤ c && c ≤ 'Z') || ('0' ≤ c && c ≤ '9')

/-- The JavaScript `\s` character class (ASCII part): space, tab,
newline, carriage return, vertical tab, form feed. -/
def isJsWs (c : Char) : Bool :=
  c = ' ' || c = '\t' || c = '\n' || c = '\r' || c = '\x0b' || c = '\x0c'

/-- The single-report filename stem:
`name.replace(/[^a-zA-Z0-9]/g, "_").substring(0, 30)`. -/
def sanitizeSingleName (name : JSStr) : JSStr :=
  (name.map (fun c => if isAsciiAlnum c then c else '_')).take 30

/-- POST /api/create-pdf (src/app/api/create-pdf/route.ts): parse the
body, validate with Zod, render the PDF, write it.  The catch block maps
a `ZodError` to status 400 and anything else to status 500. -/
def createPdfPOST (parseBody : Except JsError RawJson)
    (validate : RawJson → Except JsError ReportData)
    (renderPdf : ReportData → Except JsError Bytes)
    (write : JSStr → Bytes → Except JsError Unit) (ts : JSStr) : HttpResponse :=
  match (do
      let body ← parseBody
      let r ← validate body
      let bytes ← renderPdf r
      write (sanitizeSingleName r.patientInformation.name ++ ['_'] ++ ts
        ++ ".pdf".toList) bytes
      pure () : Except JsError Unit) with
  | .ok _ => ⟨200, []⟩
  | .error (.zod _) => ⟨400, "Invalid report structure".toList⟩
  | .error (.other _) => ⟨500, "Failed to create PDF".toList⟩

/-- POST /api/generate-report (third handler in
src/app/api/extract-patients/route.ts): 400 when the patient-info image
is missing or when neither clinical text nor clinical image is provided;
then completion, JSON parse, Zod validation, render and write, with the
catch block mapping a `ZodError` to 500 and anything else to 500. -/
def generateReportPOST (patientInfoImage clinicalImage : Option JSStr)
    (clinicalText : Option JSStr) (completionContent : Option JSStr)
    (parse : JSStr → Except JsError RawJson)
    (validate : RawJson → Except JsError ReportData)
    (renderPdf : ReportData → Except JsError Bytes)
    (write : JSStr → Bytes → Except JsError Unit) (ts : JSStr) : HttpResponse :=
  if patientInfoImage.isNone then
    ⟨400, "Patient information image is required".toList⟩
  else if !optStrTruthy clinicalText && clinicalImage.isNone then
    ⟨400, "At least one of clinical text or clinical image is required".toList⟩
  else
    match (do
        let content ← match completionContent with
          | none =>
              Except.error
                (JsError.other "No response content received from OpenAI".toList)
          | some c => Except.ok c
        let j ← parse content
        let r ← validate j
        let bytes ← renderPdf r
        write (sanitizeSingleName r.patientInformation.name ++ ['_'] ++ ts
          ++ ".pdf".toList) bytes
        pure () : Except JsError Unit) with
    | .ok _ => ⟨200, []⟩
    | .error (.zod _) => ⟨500, "Invalid report structure".toList⟩
    | .error (.other _) => ⟨500, "Failed to generate report".toList⟩

/-! ### POST /api/extract-patients (first handler in route.ts) -/

/-- The JSON object the extraction model returns for one image. -/
structure RawExtract where
  name : JSStr
  dateOfBirth : JSStr
  gender : JSStr
  mrn : JSStr
  dateOfReport : JSStr
deriving DecidableEq

/-- One entry of the `patients` array in the extraction response. -/
structure ExtractedPatient where
  id : JSStr
  name : JSStr
  dateOfBirth : JSStr
  gender : JSStr
  mrn : JSStr
  dateOfReport : JSStr
  hospital : JSStr
  imageIndex : Nat
  extractionError : Option JSStr
deriving DecidableEq

/-- The generated correlation id `patient-${i}-${Date.now()}`; the clock
value is a parameter. -/
def patientIdFor (i : Nat) (now : JSStr) : JSStr :=
  "patient-".toList ++ (toString i).toList ++ ['-'] ++ now

/-- The constant hospital name injected by the route. -/
def hospitalConst : JSStr := "Emirates International Hospital".toList

/-- Per-image extraction with isolated failure: on success the parsed
fields plus the constant hospital; on failure the placeholder identity
with the error message recorded. -/
def extractOne (now today : JSStr)
    (extract : Nat → JSStr → Except JSStr RawExtract) (i : Nat)
    (file : JSStr) : ExtractedPatient :=
  match extract i file with
  | .ok info =>
      ⟨patientIdFor i now, info.name, info.dateOfBirth, info.gender,
        info.mrn, info.dateOfReport, hospitalConst, i, none⟩
  | .error e =>
      ⟨patientIdFor i now,
        ("Patient " ++ toString (i + 1) ++ " (Extraction Failed)").toList,
        "Unknown".toList, "Unknown".toList, "Unknown".toList, today,
        hospitalConst, i, some e⟩

/-- The extraction endpoint's response. -/
inductive ExtractResponse where
  | badRequest (msg : JSStr)
  | ok (patients : List ExtractedPatient)
deriving DecidableEq

/-- Status code of an extraction response. -/
def ExtractResponse.statusOf : ExtractResponse → Nat
  | .badRequest _ => 400
  | .ok _ => 200

/-- POST /api/extract-patients: 400 for an empty upload, 400 for more
than 10 images, otherwise one entry per image in input order. -/
def extractPatientsPOST (now today : JSStr)
    (extract : Nat → JSStr → Except JSStr RawExtract)
    (files : List JSStr) : ExtractResponse :=
  if files.length = 0 then .badRequest "No patient images provided".toList
  else if 10 < files.length then
    .badRequest "Maximum 10 patient images allowed".toList
  else .ok (files.enum.map (fun p => extractOne now today extract p.1 p.2))

/-! ### POST /api/create-pdfs-batch (second handler in route.ts) -/

/-- Drop every character outside `[a-zA-Z0-9\s]`
(`.replace(/[^a-zA-Z0-9\s]/g, "")`). -/
def stripNonNameChars (name : JSStr) : JSStr :=
  name.filter (fun c => isAsciiAlnum c || isJsWs c)

/-- Character-by-character whitespace-run collapsing: the flag records
whether the previous character was whitespace, so each maximal run emits
exactly one underscore at its first character. -/
def collapseWs : Bool → JSStr → JSStr
  | _, [] => []
  | prevWs, c :: rest =>
      if isJsWs c then
        if prevWs then collapseWs true rest
        else '_' :: collapseWs true rest
      else c :: collapseWs false rest

/-- Replace every maximal run of whitespace by one underscore
(`.replace(/\s+/g, "_")`). -/
def replaceWsRuns (s : JSStr) : JSStr := collapseWs false s

/-- The batch filename stem: strip, collapse whitespace to underscores,
truncate to 50 characters. -/
def sanitizePatientName (name : JSStr) : JSStr :=
  (replaceWsRuns (stripNonNameChars name)).take 50

/-- One entry of the batch create-PDFs `results` array. -/
inductive PdfResult where
  | success (patientId patientName pdfFilename docxFilename : JSStr)
  | failure (patientId patientName msg : JSStr)
deriving DecidableEq

/-- Processing of one record of the batch: validate, render PDF and
DOCX, build both filenames from the shared stem and the batch timestamp,
write both files; any thrown error yields a failure entry naming the
patient from the raw body when readable, else "Unknown". -/
def processPdfRecord (validate : RawJson → Except JsError ReportData)
    (renderPdf renderDocx : ReportData → Except JsError Bytes)
    (write : JSStr → Bytes → Except JsError Unit)
    (rawNameOf : RawJson → Option JSStr) (ts : JSStr) (pid : JSStr)
    (rep : RawJson) : PdfResult :=
  let onError : JsError → PdfResult := fun e =>
    .failure pid ((rawNameOf rep).getD "Unknown".toList) (jsErrorMessage e)
  match validate rep with
  | .error e => onError e
  | .ok r =>
      match renderPdf r with
      | .error e => onError e
      | .ok pdfBytes =>
          match renderDocx r with
          | .error e => onError e
          | .ok docxBytes =>
              let stem := sanitizePatientName r.patientInformation.name
              let pdfFilename := stem ++ ['_'] ++ ts ++ ".pdf".toList
              let docxFilename := stem ++ ['_'] ++ ts ++ ".docx".toList
              match write pdfFilename pdfBytes with
              | .error e => onError e
              | .ok _ =>
                  match write docxFilename docxBytes with
                  | .error e => onError e
                  | .ok _ =>
                      .success pid r.patientInformation.name pdfFilename
                        docxFilename

/-- The batch create-PDFs endpoint's response. -/
inductive BatchPdfResponse where
  | badRequest (msg : JSStr)
  | ok (results : List PdfResult)
deriving DecidableEq

/-- Status code of a batch create-PDFs response. -/
def BatchPdfResponse.statusOf : BatchPdfResponse → Nat
  | .badRequest _ => 400
  | .ok _ => 200

/-- POST /api/create-pdfs-batch: 400 for an empty report list, 400 for a
missing (falsy) batch timestamp, otherwise the records processed
serially in order. -/
def createPdfsBatchPOST (validate : RawJson → Except JsError ReportData)
    (renderPdf renderDocx : ReportData → Except JsError Bytes)
    (write : JSStr → Bytes → Except JsError Unit)
    (rawNameOf : RawJson → Option JSStr) (batchTimestamp : Option JSStr)
    (reports : List (JSStr × RawJson)) : BatchPdfResponse :=
  if reports.length = 0 then .badRequest "No reports provided".toList
  else if !optStrTruthy batchTimestamp then
    .badRequest "Batch timestamp is required".toList
  else
    .ok (reports.map (fun pr =>
      processPdfRecord validate renderPdf renderDocx write rawNameOf
        (batchTimestamp.getD []) pr.1 pr.2))

/-! ### POST /api/generate-reports-batch (fourth handler in route.ts) -/

/-- The patient identity block sent with a batch generation request. -/
structure BatchPatientInfo where
  id : JSStr
  name : JSStr
  dateOfBirth : JSStr
  gender : JSStr
  mrn : JSStr
  dateOfReport : JSStr
  hospital : JSStr
deriving DecidableEq

/-- One record of a batch generation request. -/
structure PatientData where
  patientInfo : BatchPatientInfo
  clinicalText : JSStr
  clinicalImageBase64 : Option JSStr
deriving DecidableEq

/-- One entry of the batch generation `reports` array. -/
inductive GenResult where
  | success (patientId patientName : JSStr) (report : ReportData)
  | failure (patientId patientName msg : JSStr)
deriving DecidableEq

/-- The per-record outcome: `generateSingleReport` (the oracle `gen`)
either succeeds with a validated report or throws, in which case the
failure entry keeps the record's identity and the error message. -/
def reportResultFor (gen : PatientData → Except JSStr ReportData)
    (p : PatientData) : GenResult :=
  match gen p with
  | .ok r => .success p.patientInfo.id p.patientInfo.name r
  | .error e => .failure p.patientInfo.id p.patientInfo.name e

/-- The chunked loop: `for (let i = 0; i < patients.length; i += 2)`
processes `patients.slice(i, i + 2)` with `Promise.all` (which preserves
input order) and appends the chunk's results. -/
def generateReportsChunked (gen : PatientData → Except JSStr ReportData) :
    List PatientData → List GenResult
  | [] => []
  | [p] => [reportResultFor gen p]
  | p :: q :: rest =>
      reportResultFor gen p :: reportResultFor gen q ::
        generateReportsChunked gen rest

/-- The batch generation endpoint's response. -/
inductive BatchReportsResponse where
  | badRequest (msg : JSStr)
  | ok (reports : List GenResult)
deriving DecidableEq

/-- Status code of a batch generation response. -/
def BatchReportsResponse.statusOf : BatchReportsResponse → Nat
  | .badRequest _ => 400
  | .ok _ => 200

/-- POST /api/generate-reports-batch: 400 for an empty patient list,
otherwise the chunked generation results. -/
def generateReportsBatchPOST (gen : PatientData → Except JSStr ReportData)
    (patients : List PatientData) : BatchReportsResponse :=
  if patients.length = 0 then .badRequest "No patients data provided".toList
  else .ok (generateReportsChunked gen patients)

/-! ## Concrete data used by witnesses -/

/-- A small concrete validated report used by witnesses. -/
def wReport : ReportData :=
  { patientInformation :=
      { name := "Jane Doe".toList, dateOfBirth := "1980-01-01".toList,
        gender := "F".toList, mrn := "123".toList,
        dateOfReport := "2026-01-01".toList, hospital := hospitalConst },
    clinicalHistory := "Severe right knee pain 9/10.".toList,
    pastMedicalHistory := ["Hypertension".toList],
    vitalSigns := ["Blood Pressure: stable".toList],
    clinicalNotes := "Mild restriction of knee ROM.".toList,
    diagnoses := [⟨"Knee OA".toList, "M17.11".toList, "Osteoarthritis".toList⟩],
    treatmentPlan :=
      { medications := ["Paracetamol 650 mg".toList],
        homePhysio := ⟨"3 times per week".toList, "6 months".toList⟩,
        shortTermGoals := ["Reduce pain".toList],
        longTermGoals := ["Independent ambulation".toList] },
    prognosis := ["Good".toList],
    conclusion := "Will benefit from home physical therapy.".toList,
    signature :=
      { greeting := "Sincerely,".toList,
        doctorName := "Dr. Farhat El Rassi".toList,
        title := "Consultant Orthopedic Surgeon".toList,
        dohLicense := "DOH License No.: GD36956".toList,
        facility := "Facility: Emirates International Hospital, Abu Dhabi, UAE".toList,
        date := "Date: 2026-01-01".toList,
        signatureStamp := "Signature and Stamp:".toList } }

/-- Batch patient records used by the C6 witness. -/
def wPatient (tag : JSStr) : PatientData :=
  { patientInfo :=
      { id := tag, name := tag, dateOfBirth := [], gender := [], mrn := [],
        dateOfReport := [], hospital := hospitalConst },
    clinicalText := [], clinicalImageBase64 := none }

/-- A generation oracle that fails exactly on the record tagged "B". -/
def wGen (p : PatientData) : Except JSStr ReportData :=
  if p.patientInfo.id = "B".toList then Except.error "boom".toList
  else Except.ok wReport

/-- The three-record batch [A, B, C] used by the C6 witness. -/
def wBatch : List PatientData :=
  [wPatient "A".toList, wPatient "B".toList, wPatient "C".toList]

/-- A `drawText` configuration starting exactly at the bottom padding,
used by the C1 counterexample: one short line, drawn at offset 100. -/
def lowCfg : TextConfig :=
  { text := "hi".toList, x := 50, y := 100, size := 12, maxWidth := 495,
    lineHeight := 18, bold := false }

/-- A fresh one-page draw state, cursor at the top of the content area. -/
def freshState : DrawState := ⟨1, 0, 612, []⟩

/-- The result of the C1 counterexample run. -/
def lowRun : DrawState := drawText pdfCtx lenMetric lowCfg freshState

/-- A `drawText` configuration starting at the top of the content area,
used by the C1 witness. -/
def topCfg : TextConfig :=
  { text := "hi".toList, x := 50, y := 612, size := 12, maxWidth := 495,
    lineHeight := 18, bold := false }

/-- Always-succeeding validation oracle for witnesses. -/
def wValidate : RawJson → Except JsError ReportData := fun _ => Except.ok wReport

/-- Always-succeeding renderer oracle for witnesses. -/
def wRender : ReportData → Except JsError Bytes := fun _ => Except.ok []

/-- Always-succeeding file-write oracle for witnesses. -/
def wWrite : JSStr → Bytes → Except JsError Unit := fun _ _ => Except.ok ()

/-- Raw-name reader that finds nothing, for witnesses. -/
def wRawName : RawJson → Option JSStr := fun _ => none

/-- The filename stem of the witness report. -/
def wStem : JSStr := sanitizePatientName wReport.patientInformation.name

/-- The witness PDF filename for batch timestamp "T". -/
def wPdfName : JSStr := wStem ++ ['_'] ++ "T".toList ++ ".pdf".toList

/-- The witness DOCX filename for batch timestamp "T". -/
def wDocxName : JSStr := wStem ++ ['_'] ++ "T".toList ++ ".docx".toList

/-! ## Helper lemmas on the wrap loop -/

/-- The source loop and the spec-side greedy rule agree word for word once
the word list is fixed; the accumulator of the loop is prepended. -/
theorem wrapTextGo_eq_greedy (m : Int) (f : JSStr → Int → Int) (s : Int)
    (ws : List JSStr) (cur : JSStr) (lines : List JSStr) :
    wrapTextGo m f s ws cur lines = lines ++ greedyWrapSpec m f s ws cur := by
  induction ws generalizing cur lines with
  | nil =>
      by_cases h : cur = [] <;> simp [wrapTextGo, greedyWrapSpec, h]
  | cons w ws ih =>
      by_cases h : cur = []
      · subst h
        simp [wrapTextGo, greedyWrapSpec, ih]
      · by_cases hw : f (cur ++ ' ' :: w) s ≤ m
        · simp [wrapTextGo, greedyWrapSpec, h, hw, not_lt.mpr hw, ih]
        · simp [wrapTextGo, greedyWrapSpec, h, hw, not_le.mp hw, ih]

/-- `wrapText` is the greedy rule applied to the space-split word list. -/
theorem wrapText_eq_greedy (text : JSStr) (m : Int) (f : JSStr → Int → Int)
    (s : Int) :
    wrapText text m f s = greedyWrapSpec m f s (text.splitOn ' ') [] := by
  simpa using wrapTextGo_eq_greedy m f s (text.splitOn ' ') [] []

/-- An empty greedy result forces an empty current line and all-empty
words. -/
theorem greedyWrapSpec_eq_nil (m : Int) (f : JSStr → Int → Int) (s : Int) :
    ∀ ws cur, greedyWrapSpec m f s ws cur = [] →
      cur = [] ∧ ∀ w ∈ ws, w = []
  | [], cur => by
      by_cases h : cur = [] <;> simp [greedyWrapSpec, h]
  | w :: ws, cur => by
      intro hnil
      by_cases h : cur = []
      · subst h
        rw [greedyWrapSpec, if_pos rfl] at hnil
        have hnext := greedyWrapSpec_eq_nil m f s ws w hnil
        refine ⟨rfl, ?_⟩
        intro x hx
        rcases List.mem_cons.mp hx with hx | hx
        · rw [hx]; exact hnext.1
        · exact hnext.2 x hx
      · rw [greedyWrapSpec, if_neg h] at hnil
        by_cases hw : f (cur ++ ' ' :: w) s ≤ m
        · rw [if_pos hw] at hnil
          have := (greedyWrapSpec_eq_nil m f s ws (cur ++ ' ' :: w) hnil).1
          simp at this
        · rw [if_neg hw] at hnil
          simp at hnil

/-- All-empty words produce no lines. -/
theorem greedyWrapSpec_nil_of_all_empty (m : Int) (f : JSStr → Int → Int)
    (s : Int) : ∀ ws, (∀ w ∈ ws, w = []) → greedyWrapSpec m f s ws [] = []
  | [], _ => by simp [greedyWrapSpec]
  | w :: ws, h => by
      have hw : w = [] := h w (by simp)
      subst hw
      rw [greedyWrapSpec, if_pos rfl]
      exact greedyWrapSpec_nil_of_all_empty m f s ws
        (fun x hx => h x (by simp [hx]))

/-- Splitting an all-space string on the space character yields only
empty words. -/
theorem splitOn_space_all_empty :
    ∀ text : JSStr, (∀ c ∈ text, c = ' ') →
      ∀ w ∈ text.splitOn ' ', w = []
  | [], _ => by simp [List.splitOn]
  | c :: t, h => by
      have hc : c = ' ' := h c (by simp)
      subst hc
      intro w hw
      rw [show (' ' :: t).splitOn ' ' = [] :: t.splitOn ' ' by
        simp [List.splitOn, List.splitOnP_cons]] at hw
      rcases List.mem_cons.mp hw with hw | hw
      · exact hw
      · exact splitOn_space_all_empty t (fun x hx => h x (by simp [hx])) w hw

/-- `intercalate` over a cons with a nonempty tail. -/
theorem intercalate_cons_ne_nil (sep a : JSStr) (l : List JSStr)
    (h : l ≠ []) :
    List.intercalate sep (a :: l) = a ++ sep ++ List.intercalate sep l := by
  cases l with
  | nil => exact absurd rfl h
  | cons b l => simp [List.intercalate, List.intersperse]

/-- Characters of an intercalation of empty chunks are separators. -/
theorem mem_intercalate_space_all_empty :
    ∀ ls : List JSStr, (∀ w ∈ ls, w = []) →
      ∀ c ∈ List.intercalate [' '] ls, c = ' '
  | [], _ => by simp [List.intercalate]
  | [l], h => by
      have := h l (by simp)
      subst this
      simp [List.intercalate]
  | l :: l2 :: ls, h => by
      have hl : l = [] := h l (by simp)
      subst hl
      intro c hc
      rw [intercalate_cons_ne_nil _ _ _ (by simp)] at hc
      simp only [List.nil_append, List.cons_append, List.mem_cons,
        List.nil_append] at hc
      rcases hc with hc | hc
      · exact hc
      · exact mem_intercalate_space_all_empty (l2 :: ls)
          (fun x hx => h x (by simp [hx])) c (by simpa using hc)

/-- If every word of the space-split is empty, the string is all
spaces. -/
theorem all_space_of_words_empty (text : JSStr)
    (h : ∀ w ∈ text.splitOn ' ', w = []) : ∀ c ∈ text, c = ' ' := by
  have hrec := List.intercalate_splitOn text ' '
  intro c hc
  rw [← hrec] at hc
  exact mem_intercalate_space_all_empty (text.splitOn ' ') h c hc

/-- Merging the first two chunks with a space does not change the
space-joined value. -/
theorem intercalate_space_merge (cur w : JSStr) (ws : List JSStr) :
    List.intercalate [' '] ((cur ++ ' ' :: w) :: ws) =
      List.intercalate [' '] (cur :: w :: ws) := by
  cases ws with
  | nil => simp [List.intercalate, List.intersperse]
  | cons b l =>
      rw [intercalate_cons_ne_nil [' '] (cur ++ ' ' :: w) (b :: l) (by simp),
        intercalate_cons_ne_nil [' '] cur (w :: b :: l) (by simp),
        intercalate_cons_ne_nil [' '] w (b :: l) (by simp)]
      simp

/-- With nonempty words and a nonempty current line, the greedy wrap
only regroups the words: joining its lines with single spaces equals
joining the current line and the remaining words. -/
theorem greedyWrapSpec_join (m : Int) (f : JSStr → Int → Int) (s : Int) :
    ∀ ws cur, (∀ w ∈ ws, w ≠ []) → cur ≠ [] →
      List.intercalate [' '] (greedyWrapSpec m f s ws cur) =
        List.intercalate [' '] (cur :: ws)
  | [], cur => by
      intro _ hcur
      simp [greedyWrapSpec, hcur]
  | w :: ws, cur => by
      intro hw hcur
      have hwne : w ≠ [] := hw w (by simp)
      have hwrest : ∀ x ∈ ws, x ≠ [] := fun x hx => hw x (by simp [hx])
      rw [greedyWrapSpec, if_neg hcur]
      by_cases hfit : f (cur ++ ' ' :: w) s ≤ m
      · rw [if_pos hfit,
          greedyWrapSpec_join m f s ws (cur ++ ' ' :: w) hwrest (by simp)]
        exact intercalate_space_merge cur w ws
      · rw [if_neg hfit]
        have hG : greedyWrapSpec m f s ws w ≠ [] := by
          intro hnil
          exact hwne (greedyWrapSpec_eq_nil m f s ws w hnil).1
        rw [intercalate_cons_ne_nil _ _ _ hG,
          greedyWrapSpec_join m f s ws w hwrest hwne,
          intercalate_cons_ne_nil [' '] cur (w :: ws) (by simp)]

/-- A current line too wide for `maxWidth` is emitted as a line on its
own, provided widths never shrink when a word is appended. -/
theorem greedyWrapSpec_overlong_cur (m : Int) (f : JSStr → Int → Int)
    (s : Int) (hm : ∀ a b : JSStr, f a s ≤ f (a ++ ' ' :: b) s)
    (ws : List JSStr) (cur : JSStr) (hcur : cur ≠ [])
    (hwide : m < f cur s) : cur ∈ greedyWrapSpec m f s ws cur := by
  cases ws with
  | nil => simp [greedyWrapSpec, hcur]
  | cons w ws =>
      rw [greedyWrapSpec, if_neg hcur,
        if_neg (by have := hm cur w; omega)]
      exact List.mem_cons_self _ _

/-- Every nonempty word wider than `maxWidth` appears as its own line in
the greedy result, provided the width metric never shrinks when text is
appended on either side of a space. -/
theorem greedyWrapSpec_overlong_mem (m : Int) (f : JSStr → Int → Int)
    (s : Int) (hm : ∀ a b : JSStr, f a s ≤ f (a ++ ' ' :: b) s)
    (hm2 : ∀ a b : JSStr, f b s ≤ f (a ++ ' ' :: b) s) :
    ∀ ws cur, ∀ w ∈ ws, w ≠ [] → m < f w s →
      w ∈ greedyWrapSpec m f s ws cur
  | [], cur => by simp
  | v :: ws, cur => by
      intro w hw hwne hwide
      rcases List.mem_cons.mp hw with hv | hv
      · subst hv
        by_cases hcur : cur = []
        · subst hcur
          rw [greedyWrapSpec, if_pos rfl]
          exact greedyWrapSpec_overlong_cur m f s hm ws w hwne hwide
        · rw [greedyWrapSpec, if_neg hcur,
            if_neg (by have := hm2 cur w; omega)]
          exact List.mem_cons_of_mem _
            (greedyWrapSpec_overlong_cur m f s hm ws w hwne hwide)
      · by_cases hcur : cur = []
        · subst hcur
          rw [greedyWrapSpec, if_pos rfl]
          exact greedyWrapSpec_overlong_mem m f s hm hm2 ws v w hv hwne hwide
        · rw [greedyWrapSpec, if_neg hcur]
          by_cases hfit : f (cur ++ ' ' :: v) s ≤ m
          · rw [if_pos hfit]
            exact greedyWrapSpec_overlong_mem m f s hm hm2 ws _ w hv hwne hwide
          · rw [if_neg hfit]
            exact List.mem_cons_of_mem _
              (greedyWrapSpec_overlong_mem m f s hm hm2 ws v w hv hwne hwide)

/-- Every draw operation emitted by the `drawText` loop is either an old
one or sits within the vertical bounds, as long as the entry offset is
at most `pageHeight - topPadding`. -/
theorem drawTextLoop_ops_bounds (ctx : PageContext) (x size lh : Int)
    (b : Bool) (hb : ctx.bottomPadding ≤ ctx.pageHeight - ctx.topPadding)
    (hlh : 0 ≤ lh) :
    ∀ (lines : List JSStr) (st : DrawState),
      st.y ≤ ctx.pageHeight - ctx.topPadding →
      ∀ op ∈ (drawTextLoop ctx x size lh b lines st).ops,
        op ∈ st.ops ∨
          (ctx.bottomPadding ≤ op.y ∧ op.y ≤ ctx.pageHeight - ctx.topPadding)
  | [], st => by
      intro _ op hop
      exact Or.inl hop
  | line :: rest, st => by
      intro hy op hop
      by_cases hbr : st.y < ctx.bottomPadding
      · rw [drawTextLoop, if_pos hbr] at hop
        have hrec := drawTextLoop_ops_bounds ctx x size lh b hb hlh rest _
          (by simp; omega) op hop
        rcases hrec with hmem | hbnd
        · simp only [List.mem_append, List.mem_singleton] at hmem
          rcases hmem with h1 | h2
          · exact Or.inl h1
          · subst h2
            exact Or.inr ⟨by simpa using hb, by simp⟩
        · exact Or.inr hbnd
      · rw [drawTextLoop, if_neg hbr] at hop
        have hrec := drawTextLoop_ops_bounds ctx x size lh b hb hlh rest _
          (by simp; omega) op hop
        rcases hrec with hmem | hbnd
        · simp only [List.mem_append, List.mem_singleton] at hmem
          rcases hmem with h1 | h2
          · exact Or.inl h1
          · subst h2
            exact Or.inr ⟨by simpa using not_lt.mp hbr, by simpa using hy⟩
        · exact Or.inr hbnd

/-- C1, amended.  The PDF renderer's per-line pagination in `drawText`
guarantees that every write lands at an offset within
`[bottomPadding, pageHeight - topPadding]` (the cursor itself may drop
below `bottomPadding` after the trailing `lineHeight` decrement), and
whenever the pending offset is below `bottomPadding` a new page is
allocated first and the line is written at `pageHeight - topPadding`. -/
theorem drawText_write_bounds (ctx : PageContext) (f : JSStr → Int → Int)
    (cfg : TextConfig) (st : DrawState)
    (hb : ctx.bottomPadding ≤ ctx.pageHeight - ctx.topPadding)
    (hlh : 0 ≤ cfg.lineHeight) (hy : cfg.y ≤ ctx.pageHeight - ctx.topPadding) :
    (∀ op ∈ (drawText ctx f cfg st).ops,
        op ∈ st.ops ∨
          (ctx.bottomPadding ≤ op.y ∧ op.y ≤ ctx.pageHeight - ctx.topPadding))
    ∧ ∀ (x size lh : Int) (b : Bool) (line : JSStr) (rest : List JSStr)
        (st1 : DrawState), st1.y < ctx.bottomPadding →
        drawTextLoop ctx x size lh b (line :: rest) st1 =
          drawTextLoop ctx x size lh b rest
            ⟨st1.nPages + 1, st1.nPages,
              ctx.pageHeight - ctx.topPadding - lh,
              st1.ops ++
                [⟨st1.nPages, x, ctx.pageHeight - ctx.topPadding, size, line, b⟩]⟩ := by
  constructor
  · intro op hop
    rw [drawText] at hop
    have := drawTextLoop_ops_bounds ctx cfg.x cfg.size cfg.lineHeight cfg.bold
      hb hlh (wrapText cfg.text cfg.maxWidth f cfg.size) { st with y := cfg.y }
      (by simpa using hy) op hop
    simpa using this
  · intro x size lh b line rest st1 h1
    rw [drawTextLoop, if_pos h1]

/-- C1 witness: a pending offset of 50 (below the bottom padding 100)
makes the loop allocate page 1 and write the line at offset 612. -/
theorem drawText_write_bounds_witness :
    drawTextLoop pdfCtx 50 12 18 false ["hi".toList] ⟨1, 0, 50, []⟩ =
      drawTextLoop pdfCtx 50 12 18 false []
        ⟨1 + 1, 1, pdfCtx.pageHeight - pdfCtx.topPadding - 18,
          [] ++ [⟨1, 50, pdfCtx.pageHeight - pdfCtx.topPadding, 12,
            "hi".toList, false⟩]⟩ :=
  (drawText_write_bounds pdfCtx lenMetric topCfg freshState (by decide)
    (by decide) (by decide)).2 50 12 18 false "hi".toList [] ⟨1, 0, 50, []⟩
    (by decide)

/-- C1 counterexample: the claim as stated — the offset lies within
`[bottomPadding, pageHeight - topPadding]` immediately after any write —
fails: writing one line at offset 100 leaves the cursor at 82, below the
bottom padding, because the write decrements the offset by
`lineHeight`. -/
theorem drawText_offset_after_write_counterexample :
    lowRun.ops.length = 1 ∧
      ¬(pdfCtx.bottomPadding ≤ lowRun.y ∧
        lowRun.y ≤ pdfCtx.pageHeight - pdfCtx.topPadding) := by
  decide

/-- C2: `ensureSpaceForSection` returns its input unchanged exactly when
`offset - minRequired` stays at or above the bottom padding; otherwise it
allocates a fresh page and resets the offset to
`pageHeight - topPadding`. -/
theorem ensureSpaceForSection_spec (ctx : PageContext) (st : DrawState)
    (minSpace : Int) :
    (ensureSpaceForSection ctx st minSpace = st ↔
      ctx.bottomPadding ≤ st.y - minSpace)
    ∧ (st.y - minSpace < ctx.bottomPadding →
        ensureSpaceForSection ctx st minSpace =
          ⟨st.nPages + 1, st.nPages, ctx.pageHeight - ctx.topPadding, st.ops⟩)
    ∧ (ctx.bottomPadding ≤ st.y - minSpace →
        ensureSpaceForSection ctx st minSpace = st) := by
  by_cases h : st.y - minSpace < ctx.bottomPadding
  · refine ⟨⟨fun heq => ?_, fun hge => absurd h (not_lt.mpr hge)⟩,
      fun _ => ?_, fun hge => absurd h (not_lt.mpr hge)⟩
    · have hn := congrArg DrawState.nPages heq
      rw [ensureSpaceForSection, if_pos h] at hn
      simp at hn
    · rw [ensureSpaceForSection, if_pos h]
  · refine ⟨⟨fun _ => not_lt.mp h, fun _ => ?_⟩,
      fun hlt => absurd hlt h, fun _ => ?_⟩
    · rw [ensureSpaceForSection, if_neg h]
    · rw [ensureSpaceForSection, if_neg h]

/-- C2 witness: at offset 150 a request for 74 points of space forces a
fresh page with the offset reset to 612. -/
theorem ensureSpaceForSection_spec_witness :
    ensureSpaceForSection pdfCtx ⟨1, 0, 150, []⟩ 74 = ⟨1 + 1, 1, 612, []⟩ :=
  (ensureSpaceForSection_spec pdfCtx ⟨1, 0, 150, []⟩ 74).2.1 (by decide)

/-- C3, amended.  `wrapText` splits on the space character (not general
whitespace) and then follows exactly the greedy rule of the spec: a word
is appended to a nonempty current line exactly when the width of
`currentLine + " " + word` is at most `maxWidth`, and otherwise the line
is closed; a nonempty word wider than `maxWidth` is never split — it
always appears as a line of its own (for any width metric that never
shrinks when text is appended across a space). -/
theorem wrapText_greedy_spec (text : JSStr) (m : Int)
    (f : JSStr → Int → Int) (s : Int)
    (hm : ∀ a b : JSStr,
      f a s ≤ f (a ++ ' ' :: b) s ∧ f b s ≤ f (a ++ ' ' :: b) s) :
    wrapText text m f s = greedyWrapSpec m f s (text.splitOn ' ') [] ∧
      ∀ w ∈ text.splitOn ' ', w ≠ [] → m < f w s →
        w ∈ wrapText text m f s := by
  refine ⟨wrapText_eq_greedy text m f s, ?_⟩
  intro w hw hwne hwide
  rw [wrapText_eq_greedy]
  exact greedyWrapSpec_overlong_mem m f s (fun a b => (hm a b).1)
    (fun a b => (hm a b).2) (text.splitOn ' ') [] w hw hwne hwide

/-- C3 witness: the equivalence evaluated on a concrete text with the
character-count metric. -/
theorem wrapText_greedy_spec_witness :
    wrapText "aa bb".toList 3 lenMetric 12 =
      greedyWrapSpec 3 lenMetric 12 ("aa bb".toList.splitOn ' ') [] :=
  (wrapText_greedy_spec "aa bb".toList 3 lenMetric 12
    (by
      intro a b
      constructor <;> simp [lenMetric] <;> omega)).1

/-- C3 counterexample: the claim says the input is split on whitespace;
the code splits on the space character only, so a text containing a
newline wraps differently from the spec's description. -/
theorem wrapText_split_counterexample :
    wrapText ['a', '\n', 'b'] 1 lenMetric 12 ≠
      wrapTextSpecWS ['a', '\n', 'b'] 1 lenMetric 12 := by
  decide

/-- C4, amended.  For input whose words are separated by single spaces
(no leading, trailing or repeated spaces — equivalently, splitting on the
space character yields no empty word), concatenating the wrapped lines
with single spaces reconstructs the input exactly, for every width
metric. -/
theorem wrapText_reconstructs (text : JSStr) (m : Int)
    (f : JSStr → Int → Int) (s : Int)
    (hw : ∀ w ∈ text.splitOn ' ', w ≠ []) :
    List.intercalate [' '] (wrapText text m f s) = text := by
  rw [wrapText_eq_greedy]
  cases hsp : text.splitOn ' ' with
  | nil =>
      exact absurd hsp (by rw [List.splitOn]; exact List.splitOnP_ne_nil _ text)
  | cons w ws =>
      have hwne : w ≠ [] := hw w (by rw [hsp]; simp)
      have hwrest : ∀ x ∈ ws, x ≠ [] := fun x hx => hw x (by rw [hsp]; simp [hx])
      rw [greedyWrapSpec, if_pos rfl,
        greedyWrapSpec_join m f s ws w hwrest hwne, ← hsp]
      exact List.intercalate_splitOn text ' '

/-- C4 witness: a normalized text round-trips through `wrapText`. -/
theorem wrapText_reconstructs_witness :
    List.intercalate [' '] (wrapText "aa bb".toList 3 lenMetric 12) =
      "aa bb".toList :=
  wrapText_reconstructs "aa bb".toList 3 lenMetric 12 (by decide)

/-- C4 counterexample: with a double space in the input, the joined
wrapped lines keep the double space, so they do not equal the
whitespace-normalized input. -/
theorem wrapText_normalize_counterexample :
    List.intercalate [' '] (wrapText "a  b".toList 100 lenMetric 12) ≠
      normalizeWS "a  b".toList := by
  decide

/-- C5, amended.  `wrapText` produces a non-empty line sequence exactly
when the input contains a non-space character; all-space inputs
(including the empty string) produce the empty sequence. -/
theorem wrapText_ne_nil_iff (text : JSStr) (m : Int)
    (f : JSStr → Int → Int) (s : Int) :
    wrapText text m f s ≠ [] ↔ ∃ c ∈ text, c ≠ ' ' := by
  rw [wrapText_eq_greedy]
  constructor
  · intro hne
    by_contra hall
    push_neg at hall
    exact hne (greedyWrapSpec_nil_of_all_empty m f s _
      (splitOn_space_all_empty text hall))
  · rintro ⟨c, hc, hcne⟩ hnil
    have hwords := (greedyWrapSpec_eq_nil m f s _ [] hnil).2
    exact hcne (all_space_of_words_empty text hwords c hc)

/-- C5 counterexample: the single-space input is a non-empty string but
wraps to the empty line sequence. -/
theorem wrapText_space_counterexample :
    wrapText [' '] 100 lenMetric 12 = [] ∧ ([' '] : JSStr) ≠ [] := by
  decide

/-- The chunk-of-2 loop produces exactly the per-record map. -/
theorem generateReportsChunked_eq_map
    (gen : PatientData → Except JSStr ReportData) :
    ∀ ps, generateReportsChunked gen ps = ps.map (reportResultFor gen)
  | [] => rfl
  | [_] => rfl
  | _ :: _ :: rest => by
      simp [generateReportsChunked, generateReportsChunked_eq_map gen rest]

/-- C6: a non-empty batch of N records yields exactly the N per-record
results in input order — the chunked loop equals a pointwise map, so each
entry depends only on its own record, and a failing generation call
produces a failure entry for that record without touching the others. -/
theorem generateReportsBatch_order
    (gen : PatientData → Except JSStr ReportData)
    (patients : List PatientData) (h : patients ≠ []) :
    generateReportsBatchPOST gen patients =
      BatchReportsResponse.ok (patients.map (reportResultFor gen)) ∧
    (generateReportsChunked gen patients).length = patients.length ∧
    ∀ p e, gen p = Except.error e →
      reportResultFor gen p =
        GenResult.failure p.patientInfo.id p.patientInfo.name e := by
  refine ⟨?_, ?_, ?_⟩
  · rw [generateReportsBatchPOST,
      if_neg (by simpa [List.length_eq_zero] using h),
      generateReportsChunked_eq_map]
  · rw [generateReportsChunked_eq_map]
    simp
  · intro p e he
    simp [reportResultFor, he]

/-- C6 witness: the batch [A, B, C] where B's generation fails. -/
theorem generateReportsBatch_order_witness :
    generateReportsBatchPOST wGen wBatch =
      BatchReportsResponse.ok (wBatch.map (reportResultFor wGen)) :=
  (generateReportsBatch_order wGen wBatch (by decide)).1

/-- C7, amended.  Missing required input and empty batches yield 400, and
upstream, generation and render failures yield 500; a report failing
schema validation yields 500 in the generate-report endpoint but 400 in
the create-pdf endpoint. -/
theorem httpStatus_spec :
    (∀ (j : RawJson) (d : JSStr) (rp : ReportData → Except JsError Bytes)
        (w : JSStr → Bytes → Except JsError Unit) (ts : JSStr),
      (createPdfPOST (Except.ok j) (fun _ => Except.error (JsError.zod d))
        rp w ts).status = 400)
    ∧ (∀ (j : RawJson) (r : ReportData) (msg : JSStr)
        (w : JSStr → Bytes → Except JsError Unit) (ts : JSStr),
      (createPdfPOST (Except.ok j) (fun _ => Except.ok r)
        (fun _ => Except.error (JsError.other msg)) w ts).status = 500)
    ∧ (∀ ci ct cc parse validate rp w ts,
      (generateReportPOST none ci ct cc parse validate rp w ts).status = 400)
    ∧ (∀ pii cc parse validate rp w ts,
      (generateReportPOST (some pii) none none cc parse validate rp w ts).status
        = 400)
    ∧ (∀ pii img ct parse validate rp w ts,
      (generateReportPOST (some pii) (some img) ct none parse validate rp w
        ts).status = 500)
    ∧ (∀ pii img ct c (j : RawJson) (d : JSStr) rp w ts,
      (generateReportPOST (some pii) (some img) ct (some c)
        (fun _ => Except.ok j) (fun _ => Except.error (JsError.zod d)) rp w
        ts).status = 500)
    ∧ (∀ now today ex, (extractPatientsPOST now today ex []).statusOf = 400)
    ∧ (∀ validate rp rd w rn bts,
      (createPdfsBatchPOST validate rp rd w rn bts []).statusOf = 400)
    ∧ (∀ validate rp rd w rn reports, reports ≠ [] →
      (createPdfsBatchPOST validate rp rd w rn none reports).statusOf = 400)
    ∧ (∀ gen, (generateReportsBatchPOST gen []).statusOf = 400) := by
  refine ⟨?_, ?_, ?_, ?_, ?_, ?_, ?_, ?_, ?_, ?_⟩
  · intro j d rp w ts
    rfl
  · intro j r msg w ts
    rfl
  · intro ci ct cc parse validate rp w ts
    rfl
  · intro pii cc parse validate rp w ts
    rfl
  · intro pii img ct parse validate rp w ts
    rw [generateReportPOST, if_neg (by simp), if_neg (by simp)]
    rfl
  · intro pii img ct c j d rp w ts
    rw [generateReportPOST, if_neg (by simp), if_neg (by simp)]
    rfl
  · intro now today ex
    rfl
  · intro validate rp rd w rn bts
    rfl
  · intro validate rp rd w rn reports h
    rw [createPdfsBatchPOST, if_neg (by simpa [List.length_eq_zero] using h)]
    rfl
  · intro gen
    rfl

/-- C7 witness: a non-empty batch with a missing batch timestamp is
rejected with status 400. -/
theorem httpStatus_spec_witness :
    (createPdfsBatchPOST (fun _ => Except.error (JsError.other []))
      (fun _ => Except.ok []) (fun _ => Except.ok [])
      (fun _ _ => Except.ok ()) (fun _ => none) none
      [([], [])]).statusOf = 400 :=
  httpStatus_spec.2.2.2.2.2.2.2.2.1 (fun _ => Except.error (JsError.other []))
    (fun _ => Except.ok []) (fun _ => Except.ok []) (fun _ _ => Except.ok ())
    (fun _ => none) [([], [])] (by decide)

/-- C7 counterexample: in the create-pdf endpoint, a report that fails
Zod validation is answered with status 400, not the 500 the claim
states. -/
theorem createPdf_zod_status_counterexample :
    (createPdfPOST (Except.ok []) (fun _ => Except.error (JsError.zod []))
      (fun _ => Except.ok []) (fun _ _ => Except.ok ()) []).status = 400 ∧
    (400 : Nat) ≠ 500 := by
  exact ⟨rfl, by decide⟩

/-- C8: both renderers are pure functions of the validated report — two
invocations on equal reports produce identical draw traces and identical
paragraph plans (no clock or other input enters the embedded
renderers). -/
theorem render_deterministic (f fb : JSStr → Int → Int)
    (r1 r2 : ReportData) (h : r1 = r2) :
    generatePdfTrace f fb r1 = generatePdfTrace f fb r2 ∧
      generateDocxPlan r1 = generateDocxPlan r2 := by
  subst h
  exact ⟨rfl, rfl⟩

/-- C8 witness: rendering the concrete witness report twice. -/
theorem render_deterministic_witness :
    generatePdfTrace lenMetric lenMetric wReport =
      generatePdfTrace lenMetric lenMetric wReport :=
  (render_deterministic lenMetric lenMetric wReport wReport rfl).1

/-- Both branches of the per-image extraction record the image index. -/
theorem extractOne_imageIndex (now today : JSStr)
    (ex : Nat → JSStr → Except JSStr RawExtract) (i : Nat) (file : JSStr) :
    (extractOne now today ex i file).imageIndex = i := by
  cases h : ex i file <;> simp [extractOne, h]

/-- C9: more than 10 patient images are rejected with a 400 response
that is a constant (independent of the extraction oracle, so no
extraction call can influence it), and every successful response carries
between 1 and 10 entries — exactly one per input image, in input
order. -/
theorem extractPatients_spec (now today : JSStr)
    (ex : Nat → JSStr → Except JSStr RawExtract) (files : List JSStr) :
    (10 < files.length →
      extractPatientsPOST now today ex files =
        ExtractResponse.badRequest "Maximum 10 patient images allowed".toList)
    ∧ ∀ ps, extractPatientsPOST now today ex files = ExtractResponse.ok ps →
        1 ≤ ps.length ∧ ps.length ≤ 10 ∧ ps.length = files.length ∧
        ∀ (i : Nat) (hi : i < ps.length), (ps.get ⟨i, hi⟩).imageIndex = i := by
  constructor
  · intro hgt
    rw [extractPatientsPOST, if_neg (by omega), if_pos hgt]
  · intro ps hps
    by_cases h0 : files.length = 0
    · rw [extractPatientsPOST, if_pos h0] at hps
      exact absurd hps (by simp)
    · by_cases h10 : 10 < files.length
      · rw [extractPatientsPOST, if_neg h0, if_pos h10] at hps
        exact absurd hps (by simp)
      · rw [extractPatientsPOST, if_neg h0, if_neg h10] at hps
        have hmap : files.enum.map
            (fun p => extractOne now today ex p.1 p.2) = ps := by
          injection hps
        subst hmap
        refine ⟨by simp [List.enum_length]; omega,
          by simp [List.enum_length]; omega, by simp [List.enum_length], ?_⟩
        intro i hi
        simp [List.get_eq_getElem, List.getElem_enum, extractOne_imageIndex]

/-- C9 witness: eleven images are rejected up front. -/
theorem extractPatients_spec_witness :
    extractPatientsPOST [] [] (fun _ _ => Except.error [])
        (List.replicate 11 []) =
      ExtractResponse.badRequest "Maximum 10 patient images allowed".toList :=
  (extractPatients_spec [] [] (fun _ _ => Except.error [])
    (List.replicate 11 [])).1 (by decide)

/-- Characters of the whitespace-run replacement are underscores or
non-whitespace characters of the input. -/
theorem mem_collapseWs (l : JSStr) : ∀ (b : Bool) (c : Char),
    c ∈ collapseWs b l → c = '_' ∨ (c ∈ l ∧ isJsWs c = false) := by
  induction l with
  | nil => simp [collapseWs]
  | cons x rest ih =>
      intro b c hc
      by_cases hx : isJsWs x
      · rw [collapseWs, if_pos hx] at hc
        cases b with
        | true =>
            rw [if_pos rfl] at hc
            rcases ih true c hc with h1 | h2
            · exact Or.inl h1
            · exact Or.inr ⟨List.mem_cons_of_mem _ h2.1, h2.2⟩
        | false =>
            rw [if_neg (by simp)] at hc
            rcases List.mem_cons.mp hc with h | h
            · exact Or.inl h
            · rcases ih true c h with h1 | h2
              · exact Or.inl h1
              · exact Or.inr ⟨List.mem_cons_of_mem _ h2.1, h2.2⟩
      · rw [collapseWs, if_neg hx] at hc
        rcases List.mem_cons.mp hc with h | h
        · subst h
          exact Or.inr ⟨List.mem_cons_self _ _, by simpa using hx⟩
        · rcases ih false c h with h1 | h2
          · exact Or.inl h1
          · exact Or.inr ⟨List.mem_cons_of_mem _ h2.1, h2.2⟩

/-- Every character of the sanitized batch filename stem is an ASCII
letter, a digit, or an underscore. -/
theorem sanitizePatientName_chars (name : JSStr) :
    ∀ c ∈ sanitizePatientName name, isAsciiAlnum c = true ∨ c = '_' := by
  intro c hc
  have hc2 : c ∈ replaceWsRuns (stripNonNameChars name) :=
    List.mem_of_mem_take hc
  rcases mem_collapseWs _ false c hc2 with h | ⟨hmem, hnws⟩
  · exact Or.inr h
  · have := (List.mem_filter.mp hmem).2
    simp only [Bool.or_eq_true] at this
    rcases this with h1 | h1
    · exact Or.inl h1
    · rw [h1] at hnws
      exact absurd hnws (by simp)

/-- C10: a successful record of the batch create-PDFs endpoint names its
two files from the identical stem — the validated patient name stripped
to `[a-zA-Z0-9\s]`, whitespace runs replaced by underscores, truncated to
50 characters — followed by an underscore, the shared batch timestamp and
the extension, so the stems agree, contain no path separator, and the
two filenames differ only in extension. -/
theorem processPdfRecord_filenames
    (validate : RawJson → Except JsError ReportData)
    (renderPdf renderDocx : ReportData → Except JsError Bytes)
    (write : JSStr → Bytes → Except JsError Unit)
    (rawNameOf : RawJson → Option JSStr) (ts pid rep pid2 name pf df : JSStr)
    (r : ReportData) (hv : validate rep = Except.ok r)
    (h : processPdfRecord validate renderPdf renderDocx write rawNameOf ts pid
      rep = PdfResult.success pid2 name pf df) :
    pf = sanitizePatientName r.patientInformation.name ++ ['_'] ++ ts
        ++ ".pdf".toList ∧
    df = sanitizePatientName r.patientInformation.name ++ ['_'] ++ ts
        ++ ".docx".toList ∧
    name = r.patientInformation.name ∧
    (sanitizePatientName r.patientInformation.name).length ≤ 50 ∧
    (sanitizePatientName r.patientInformation.name).all
      (fun c => (isAsciiAlnum c || c == '_') && !(c == '/') && !(c == '\\'))
      = true := by
  have hstem : (sanitizePatientName r.patientInformation.name).all
      (fun c => (isAsciiAlnum c || c == '_') && !(c == '/') && !(c == '\\'))
      = true := by
    rw [List.all_eq_true]
    intro c hc
    rcases sanitizePatientName_chars r.patientInformation.name c hc with h1 | h1
    · have h2 : c ≠ '/' := by
        intro he
        rw [he] at h1
        exact absurd h1 (by decide)
      have h3 : c ≠ '\\' := by
        intro he
        rw [he] at h1
        exact absurd h1 (by decide)
      simp [h1, h2, h3]
    · subst h1
      decide
  have hlen : (sanitizePatientName r.patientInformation.name).length ≤ 50 := by
    simp only [sanitizePatientName, List.length_take]
    omega
  cases hp : renderPdf r with
  | error e => simp [processPdfRecord, hv, hp] at h
  | ok pdfBytes =>
      cases hd : renderDocx r with
      | error e => simp [processPdfRecord, hv, hp, hd] at h
      | ok docxBytes =>
          simp only [processPdfRecord, hv, hp, hd] at h
          cases hw1 : write (sanitizePatientName r.patientInformation.name
              ++ ['_'] ++ ts ++ ".pdf".toList) pdfBytes with
          | error e =>
              rw [hw1] at h
              simp at h
          | ok u1 =>
              rw [hw1] at h
              cases hw2 : write (sanitizePatientName r.patientInformation.name
                  ++ ['_'] ++ ts ++ ".docx".toList) docxBytes with
              | error e =>
                  rw [hw2] at h
                  simp at h
              | ok u2 =>
                  rw [hw2] at h
                  simp only [PdfResult.success.injEq] at h
                  rcases h with ⟨h1, h2, h3, h4⟩
                  exact ⟨h3.symm, h4.symm, h2.symm, hlen, hstem⟩

/-- C10 witness: the witness report "Jane Doe" with batch timestamp "T"
produces the stem "Jane_Doe" shared by both filenames. -/
theorem processPdfRecord_filenames_witness :
    wPdfName = sanitizePatientName wReport.patientInformation.name ++ ['_']
        ++ "T".toList ++ ".pdf".toList ∧
    wDocxName = sanitizePatientName wReport.patientInformation.name ++ ['_']
        ++ "T".toList ++ ".docx".toList ∧
    wReport.patientInformation.name = wReport.patientInformation.name ∧
    (sanitizePatientName wReport.patientInformation.name).length ≤ 50 ∧
    (sanitizePatientName wReport.patientInformation.name).all
      (fun c => (isAsciiAlnum c || c == '_') && !(c == '/') && !(c == '\\'))
      = true :=
  processPdfRecord_filenames wValidate wRender wRender wWrite wRawName
    "T".toList [] [] [] wReport.patientInformation.name wPdfName wDocxName
    wReport rfl (by decide)

end HomePT
